import Mathlib

/-!
Verification of the 3MF export subsystem of the bekuto3d repository.

The definitions below are a shallow embedding of the TypeScript source:

* `src/composables/3mf-exporter.ts` — the slicer-compatible (BambuStudio)
  packaged-manufacturing exporter (`exportTo3MF`, `collectComponents`,
  `createMainModelXML`, `createObjectModelXML`, `createModelSettingsXML`,
  `createProjectSettingsConfig`, `rgbToHexColor`) — namespace `ThreeMF`;
* the minimal single-model variant (`exportTo3MF`, `createModelXML`,
  `processObject`) — namespace `Minimal3MF`;
* the legacy text-templated variant with 6-decimal vertex formatting —
  namespace `Legacy3MF`.

Numbers are modelled by `ℚ` (the source works on JavaScript doubles; every
claim proved here is about exact arithmetic identities or decimal-rounding
bounds, stated over the rationals).  Scene objects (three.js `Object3D`)
are modelled as a rose tree carrying the fields the exporter reads: an
optional mesh payload (`object.type === 'Mesh'`), the local matrix, the
cached `matrixWorld`, and the list of children.  JavaScript `undefined`
flowing out of an out-of-range `BufferAttribute.getX` read is modelled by
`Option`; a thrown `TypeError` (reading `.count` of a missing position
attribute) is modelled by an `Option.none` result of the whole traversal.
-/

/-- JavaScript `Math.round`: round half towards positive infinity. -/
def jsMathRound (q : ℚ) : ℤ := ⌊q + 1 / 2⌋

/-- The exact rational value denoted by the string `x.toFixed(d)` for a
rational `x`: `Number.prototype.toFixed` picks the integer `n` with
`n / 10^d` closest to `x`, the larger `n` on ties. -/
def jsToFixed (d : ℕ) (q : ℚ) : ℚ := (⌊q * 10 ^ d + 1 / 2⌋ : ℤ) / 10 ^ d

/-- A three.js `Vector3`: three coordinates (doubles in the source,
rationals here). -/
structure Vec3 where
  x : ℚ
  y : ℚ
  z : ℚ
deriving DecidableEq

/-- A three.js `Matrix4`, written with the entry names `n11 … n44` used by
the three.js sources (row `i`, column `j`). -/
structure Mat4 where
  n11 : ℚ
  n12 : ℚ
  n13 : ℚ
  n14 : ℚ
  n21 : ℚ
  n22 : ℚ
  n23 : ℚ
  n24 : ℚ
  n31 : ℚ
  n32 : ℚ
  n33 : ℚ
  n34 : ℚ
  n41 : ℚ
  n42 : ℚ
  n43 : ℚ
  n44 : ℚ
deriving DecidableEq

/-- The identity matrix (three.js `Matrix4.identity`). -/
def identity4 : Mat4 :=
  ⟨1, 0, 0, 0, 0, 1, 0, 0, 0, 0, 1, 0, 0, 0, 0, 1⟩

/-- three.js `Matrix4.multiplyMatrices a b`: the standard matrix product
`a * b`, spelled out entrywise exactly as in the three.js source. -/
def multiplyMatrices (a b : Mat4) : Mat4 where
  n11 := a.n11 * b.n11 + a.n12 * b.n21 + a.n13 * b.n31 + a.n14 * b.n41
  n12 := a.n11 * b.n12 + a.n12 * b.n22 + a.n13 * b.n32 + a.n14 * b.n42
  n13 := a.n11 * b.n13 + a.n12 * b.n23 + a.n13 * b.n33 + a.n14 * b.n43
  n14 := a.n11 * b.n14 + a.n12 * b.n24 + a.n13 * b.n34 + a.n14 * b.n44
  n21 := a.n21 * b.n11 + a.n22 * b.n21 + a.n23 * b.n31 + a.n24 * b.n41
  n22 := a.n21 * b.n12 + a.n22 * b.n22 + a.n23 * b.n32 + a.n24 * b.n42
  n23 := a.n21 * b.n13 + a.n22 * b.n23 + a.n23 * b.n33 + a.n24 * b.n43
  n24 := a.n21 * b.n14 + a.n22 * b.n24 + a.n23 * b.n34 + a.n24 * b.n44
  n31 := a.n31 * b.n11 + a.n32 * b.n21 + a.n33 * b.n31 + a.n34 * b.n41
  n32 := a.n31 * b.n12 + a.n32 * b.n22 + a.n33 * b.n32 + a.n34 * b.n42
  n33 := a.n31 * b.n13 + a.n32 * b.n23 + a.n33 * b.n33 + a.n34 * b.n43
  n34 := a.n31 * b.n14 + a.n32 * b.n24 + a.n33 * b.n34 + a.n34 * b.n44
  n41 := a.n41 * b.n11 + a.n42 * b.n21 + a.n43 * b.n31 + a.n44 * b.n41
  n42 := a.n41 * b.n12 + a.n42 * b.n22 + a.n43 * b.n32 + a.n44 * b.n42
  n43 := a.n41 * b.n13 + a.n42 * b.n23 + a.n43 * b.n33 + a.n44 * b.n43
  n44 := a.n41 * b.n14 + a.n42 * b.n24 + a.n43 * b.n34 + a.n44 * b.n44

/-- three.js `Vector3.applyMatrix4`: applies the matrix including the
projective divide by `w` (for the affine transforms produced by scene
graphs the `w` row is `0 0 0 1`, so `w = 1`).  The JavaScript `1 / w`
for `w = 0` yields `Infinity`; `ℚ` inverses send `0` to `0` instead —
no claim below touches a non-affine matrix. -/
def applyMatrix4 (m : Mat4) (v : Vec3) : Vec3 :=
  let w := (m.n41 * v.x + m.n42 * v.y + m.n43 * v.z + m.n44)⁻¹
  { x := (m.n11 * v.x + m.n12 * v.y + m.n13 * v.z + m.n14) * w
    y := (m.n21 * v.x + m.n22 * v.y + m.n23 * v.z + m.n24) * w
    z := (m.n31 * v.x + m.n32 * v.y + m.n33 * v.z + m.n34) * w }

/-- A three.js `Color`: three float channels in `[0, 1]`. -/
@[ext]
structure ThreeColor where
  r : ℚ
  g : ℚ
  b : ℚ
deriving DecidableEq

/-- The value of `mesh.material` as the exporters inspect it:
absent (a falsy `mesh.material`), a material exposing a truthy `color`
property, or a material without a usable `color` property. -/
inductive MeshMaterial where
  | noMaterial : MeshMaterial
  | withColor : ThreeColor → MeshMaterial
  | withoutColor : MeshMaterial
deriving DecidableEq

/-- The slice of a three.js `BufferGeometry` the exporters read:
`geometry.attributes.position` (a list of vertex positions, or `none`
when the attribute is missing) and `geometry.index` (or `none` for
non-indexed geometry). -/
structure Geometry where
  position : Option (List Vec3)
  index : Option (List ℕ)
deriving DecidableEq

/-- The mesh payload of a scene node of `type === 'Mesh'`. -/
structure MeshData where
  geometry : Geometry
  material : MeshMaterial
  name : String
deriving DecidableEq

/-- A three.js `Object3D` as seen by the exporters: an optional mesh
payload (`some` exactly when `object.type === 'Mesh'`), the local
matrix (the matrix composed from position/quaternion/scale), the cached
`matrixWorld` (possibly stale), and the children in stored order. -/
inductive Object3D where
  | mk : Option MeshData → Mat4 → Mat4 → List Object3D → Object3D

/-- The mesh payload of a node. -/
def Object3D.mesh : Object3D → Option MeshData
  | .mk m _ _ _ => m

/-- The local transform matrix of a node. -/
def Object3D.localMatrix : Object3D → Mat4
  | .mk _ l _ _ => l

/-- The cached world matrix of a node. -/
def Object3D.matrixWorld : Object3D → Mat4
  | .mk _ _ w _ => w

/-- The children of a node, in stored order. -/
def Object3D.children : Object3D → List Object3D
  | .mk _ _ _ cs => cs

/-- The world matrix `updateMatrixWorld` assigns to a node whose parent
world matrix is `pw` (`none` for a parentless root): the parent world
matrix times the local matrix, or the local matrix alone at the root. -/
def freshWorld (pw : Option Mat4) (loc : Mat4) : Mat4 :=
  match pw with
  | none => loc
  | some p => multiplyMatrices p loc

mutual

/-- three.js `Object3D.updateMatrixWorld(true)` modelled functionally:
returns the tree with every cached `matrixWorld` overwritten by the
parent world matrix times the node's local matrix (the in-place
mutation of the source becomes an explicit new tree). -/
def updateMatrixWorld (pw : Option Mat4) : Object3D → Object3D
  | .mk mesh loc _ cs =>
    let w := freshWorld pw loc
    .mk mesh loc w (updateMatrixWorldList (some w) cs)

/-- `updateMatrixWorld` mapped over a list of siblings. -/
def updateMatrixWorldList (pw : Option Mat4) : List Object3D → List Object3D
  | [] => []
  | t :: ts => updateMatrixWorld pw t :: updateMatrixWorldList pw ts

end

mutual

/-- The mesh payloads (vertex data, triangle indices, material
assignment, name) of all nodes of a tree, in depth-first pre-order.
Everything of a scene the exporters may read except the transform
caches is listed here. -/
def sceneMeshes : Object3D → List MeshData
  | .mk mesh _ _ cs =>
    (match mesh with | some md => [md] | none => []) ++ sceneMeshesList cs

/-- `sceneMeshes` over a list of siblings. -/
def sceneMeshesList : List Object3D → List MeshData
  | [] => []
  | t :: ts => sceneMeshes t ++ sceneMeshesList ts

end

mutual

/-- The local transform matrices of all nodes of a tree, in depth-first
pre-order. -/
def sceneLocalMatrices : Object3D → List Mat4
  | .mk _ loc _ cs => loc :: sceneLocalMatricesList cs

/-- `sceneLocalMatrices` over a list of siblings. -/
def sceneLocalMatricesList : List Object3D → List Mat4
  | [] => []
  | t :: ts => sceneLocalMatrices t ++ sceneLocalMatricesList ts

end

/-- The fallback `color.set(0x808080)` both exporters use when a present
material exposes no color: mid gray, channels `128 / 255` (channel
values interpreted directly, without renderer-side color-space
conversion). -/
def defaultGray : ThreeColor := ⟨128 / 255, 128 / 255, 128 / 255⟩

namespace ThreeMF

/-- The `MaterialInfo` record of `3mf-exporter.ts`: id, color, display
name, and 1-based extruder slot. -/
structure MaterialInfo where
  id : ℕ
  color : ThreeColor
  name : String
  extruder : ℕ
deriving DecidableEq

/-- A triangle as pushed by `collectComponents`: the three values read
with `indexAttr.getX`; an out-of-range read yields `undefined`,
modelled by `none`. -/
structure Triangle3 where
  v1 : Option ℕ
  v2 : Option ℕ
  v3 : Option ℕ
deriving DecidableEq

/-- The `ComponentInfo` record of `3mf-exporter.ts`. -/
structure ComponentInfo where
  id : ℕ
  vertices : List Vec3
  triangles : List Triangle3
  material : Option MaterialInfo
  name : String
deriving DecidableEq

/-- The display name of a freshly registered material:
`mesh.name ? mesh.name + '_material' : 'material_' + materials.length`. -/
def materialName (meshName : String) (count : ℕ) : String :=
  if meshName = "" then "material_" ++ toString count else meshName ++ "_material"

/-- Lines 91–108 of `3mf-exporter.ts`: linear scan of the material table
for a material with exactly equal `r`, `g`, `b` channels; on a miss a
new entry with `id = materials.length` and
`extruder = materials.length + 1` is appended. -/
def registerColor (color : ThreeColor) (meshName : String) (materials : List MaterialInfo) :
    MaterialInfo × List MaterialInfo :=
  match materials.find? (fun m =>
      decide (m.color.r = color.r) && decide (m.color.g = color.g) &&
      decide (m.color.b = color.b)) with
  | some existingMaterial => (existingMaterial, materials)
  | none =>
    let m : MaterialInfo :=
      { id := materials.length, color := color,
        name := materialName meshName materials.length,
        extruder := materials.length + 1 }
    (m, materials ++ [m])

/-- Lines 134–154 of `3mf-exporter.ts`: the triangle list of one mesh.
With an index attribute the loop runs `i = 0, 3, …` while
`i < indexAttr.count`, reading positions `i`, `i + 1`, `i + 2` (reads
past the end yield `undefined`); without one the loop runs over the
vertex count, emitting consecutive position numbers. -/
def meshTriangles (g : Geometry) (posCount : ℕ) : List Triangle3 :=
  match g.index with
  | some idx =>
    (List.range ((idx.length + 2) / 3)).map (fun k =>
      ⟨idx[3 * k]?, idx[3 * k + 1]?, idx[3 * k + 2]?⟩)
  | none =>
    (List.range ((posCount + 2) / 3)).map (fun k =>
      ⟨some (3 * k), some (3 * k + 1), some (3 * k + 2)⟩)

/-- The material-handling block of the mesh branch of
`collectComponents` (lines 78–109): no registration when
`mesh.material` is falsy; otherwise the material's color, or the gray
fallback when it exposes none, is looked up or registered. -/
def materialResult (md : MeshData) (materials : List MaterialInfo) :
    Option MaterialInfo × List MaterialInfo :=
  match md.material with
  | .noMaterial => (none, materials)
  | .withColor c =>
    let r := registerColor c md.name materials
    (some r.1, r.2)
  | .withoutColor =>
    let r := registerColor defaultGray md.name materials
    (some r.1, r.2)

/-- The mesh branch of `collectComponents` (lines 72–156): handles the
material, then copies each vertex into a fresh record transformed by
the node's world matrix, then collects the triangles into a new
component.  A missing position attribute makes `positionAttr.count`
throw, modelled by `none`. -/
def processMesh (world : Mat4) (md : MeshData) (components : List ComponentInfo)
    (materials : List MaterialInfo) : Option (List ComponentInfo × List MaterialInfo) :=
  let mr := materialResult md materials
  match md.geometry.position with
  | none => none
  | some ps =>
    let componentId := 100 + components.length
    let component : ComponentInfo :=
      { id := componentId
        vertices := ps.map (applyMatrix4 world)
        triangles := meshTriangles md.geometry ps.length
        material := mr.1
        name := if md.name = "" then "Default-" ++ toString componentId else md.name }
    some (components ++ [component], mr.2)

mutual

/-- `collectComponents` of `3mf-exporter.ts` (lines 64–163): calls
`object.updateMatrixWorld(true)` (so the `matrixWorld` the mesh branch
samples is freshly recomputed as parent world times local, whatever the
cache held), processes the node if it is a mesh, then recurses over the
children in stored order.  The mutated accumulator arrays become
explicit arguments and results. -/
def collectComponents (pw : Option Mat4) (obj : Object3D)
    (components : List ComponentInfo) (materials : List MaterialInfo) :
    Option (List ComponentInfo × List MaterialInfo) :=
  match obj with
  | .mk mesh loc _ cs =>
    let world := freshWorld pw loc
    match mesh with
    | none => collectChildren (some world) cs components materials
    | some md =>
      match processMesh world md components materials with
      | none => none
      | some r => collectChildren (some world) cs r.1 r.2

/-- The `object.children.forEach` recursion of `collectComponents`. -/
def collectChildren (pw : Option Mat4) (objs : List Object3D)
    (components : List ComponentInfo) (materials : List MaterialInfo) :
    Option (List ComponentInfo × List MaterialInfo) :=
  match objs with
  | [] => some (components, materials)
  | o :: rest =>
    match collectComponents pw o components materials with
    | none => none
    | some r => collectChildren pw rest r.1 r.2

end

/-- The structure of the main `3D/3dmodel.model` part built by
`createMainModelXML`: a single object with id 97 whose components block
references every collected component id, and a build item for object 97
with the identity transform. -/
structure MainModel where
  componentRefs : List ℕ
  buildObjectId : ℕ
  buildTransform : String
deriving DecidableEq

/-- `createMainModelXML` (lines 168–216), modelled at the level of the
object tree handed to the XML builder (metadata and random uuids
dropped). -/
def createMainModelXML (components : List ComponentInfo) : MainModel :=
  { componentRefs := components.map (fun c => c.id)
    buildObjectId := 97
    buildTransform := "1 0 0 0 1 0 0 0 1 0 0 0" }

/-- One `<object>` of `3D/Objects/object-97.model`: the vertex entries
hold the exact rational values denoted by the emitted
`toFixed(7)`-formatted coordinate strings. -/
structure ObjectResource where
  id : ℕ
  vertices : List Vec3
  triangles : List Triangle3
deriving DecidableEq

/-- `createObjectModelXML` (lines 221–266): one object resource per
component, coordinates formatted with `toFixed(7)`. -/
def createObjectModelXML (components : List ComponentInfo) : List ObjectResource :=
  components.map (fun c =>
    { id := c.id
      vertices := c.vertices.map (fun v =>
        ⟨jsToFixed 7 v.x, jsToFixed 7 v.y, jsToFixed 7 v.z⟩)
      triangles := c.triangles })

/-- One `<part>` element of `Metadata/model_settings.config`. -/
structure PartEntry where
  id : ℕ
  name : String
  extruder : ℕ
deriving DecidableEq

/-- `createModelSettingsXML` (lines 271–301): one part per component,
extruder from the component's material or 1. -/
def createModelSettingsXML (components : List ComponentInfo) : List PartEntry :=
  components.map (fun c =>
    { id := c.id, name := c.name
      extruder := match c.material with | some m => m.extruder | none => 1 })

/-- One byte channel as formatted by
`Math.round(channel * 255).toString(16).padStart(2, '0')` — lowercase
hexadecimal digits, left-padded to width 2. -/
def toHexByte (n : ℤ) : String :=
  let s := String.mk (Nat.toDigits 16 n.toNat)
  if s.length < 2 then "0" ++ s else s

/-- `rgbToHexColor` (lines 376–381). -/
def rgbToHexColor (color : ThreeColor) : String :=
  "#" ++ toHexByte (jsMathRound (color.r * 255)) ++
    toHexByte (jsMathRound (color.g * 255)) ++
    toHexByte (jsMathRound (color.b * 255))

/-- The flat key/value object serialized into
`Metadata/project_settings.config`. -/
structure ProjectSettings where
  printable_area : List String
  printable_height : String
  filament_colour : List String
  filament_settings_id : List String
  filament_diameter : List String
  filament_is_support : List String
  printer_model : String
  layer_height : String
  wall_loops : String
  sparse_infill_density : String
  printer_settings_id : String
  printer_variant : String
  nozzle_diameter : List String
  enable_support : String
  support_type : String
  print_settings_id : String
deriving DecidableEq

/-- `createProjectSettingsConfig` (lines 306–338): one hex color per
registered material, then `while (colors.length < 2) colors.push('#FFFFFF')`
pads to at least two entries; the remaining printer/process parameters
are fixed. -/
def createProjectSettingsConfig (materials : List MaterialInfo) : ProjectSettings :=
  let colors := materials.map (fun m => rgbToHexColor m.color)
  let colors := colors ++ List.replicate (2 - colors.length) "#FFFFFF"
  { printable_area := ["0x0", "180x0", "180x180", "0x180"]
    printable_height := "180"
    filament_colour := colors
    filament_settings_id := List.replicate colors.length "Bambu PLA Basic @BBL A1M"
    filament_diameter := List.replicate colors.length "1.75"
    filament_is_support := List.replicate colors.length "0"
    printer_model := "Bambu Lab A1 mini"
    layer_height := "0.2"
    wall_loops := "2"
    sparse_infill_density := "15%"
    printer_settings_id := "Bambu Lab A1 mini 0.4 nozzle"
    printer_variant := "0.4"
    nozzle_diameter := ["0.4"]
    enable_support := "0"
    support_type := "normal(auto)"
    print_settings_id := "0.20mm Standard" }

/-- The seven files `exportTo3MF` writes, by content. -/
structure Package3MF where
  mainModel : MainModel
  objectModel : List ObjectResource
  modelSettings : List PartEntry
  projectSettings : ProjectSettings
deriving DecidableEq

/-- `exportTo3MF` (lines 32–59): collect components and materials from
the scene, build the four generated parts (a rejected promise when
collection throws is `none`). -/
def exportTo3MF (object : Object3D) : Option Package3MF :=
  match collectComponents none object [] [] with
  | none => none
  | some r =>
    some { mainModel := createMainModelXML r.1
           objectModel := createObjectModelXML r.1
           modelSettings := createModelSettingsXML r.1
           projectSettings := createProjectSettingsConfig r.2 }

/-- The content stored at one archive path. -/
inductive PackageContent where
  | contentTypes : PackageContent
  | rootRelationships : PackageContent
  | mainModel : MainModel → PackageContent
  | objectRelationships : PackageContent
  | objectModel : List ObjectResource → PackageContent
  | modelSettings : List PartEntry → PackageContent
  | projectSettings : ProjectSettings → PackageContent
deriving DecidableEq

/-- The seven `zip.file(path, content)` calls of `exportTo3MF`
(lines 49–55), in source order. -/
def zipEntries (p : Package3MF) : List (String × PackageContent) :=
  [("[Content_Types].xml", .contentTypes),
   ("_rels/.rels", .rootRelationships),
   ("3D/3dmodel.model", .mainModel p.mainModel),
   ("3D/_rels/3dmodel.model.rels", .objectRelationships),
   ("3D/Objects/object-97.model", .objectModel p.objectModel),
   ("Metadata/model_settings.config", .modelSettings p.modelSettings),
   ("Metadata/project_settings.config", .projectSettings p.projectSettings)]

end ThreeMF

namespace Minimal3MF

/-- The `MaterialInfo` record of the minimal exporter variant: id,
color, and display name (no extruder slot). -/
structure MaterialInfo where
  id : ℕ
  color : ThreeColor
  name : String
deriving DecidableEq

/-- A triangle pushed by `processObject`: indices re-based by the
leaf's vertex offset, plus the optional material id (`pid`).  The
JavaScript sum `vertexOffset + undefined` is `NaN`, modelled by
`none`. -/
structure GTriangle where
  v1 : Option ℕ
  v2 : Option ℕ
  v3 : Option ℕ
  pid : Option ℕ
deriving DecidableEq

/-- The three arrays `processObject` mutates, as one record. -/
structure ModelAcc where
  vertices : List Vec3
  triangles : List GTriangle
  materials : List MaterialInfo
deriving DecidableEq

/-- Lines 146–161 of the minimal variant: linear scan for a material
with exactly equal channels, else append one with
`id = materials.length`; returns the material id used. -/
def registerColorId (color : ThreeColor) (meshName : String)
    (materials : List MaterialInfo) : ℕ × List MaterialInfo :=
  match materials.find? (fun m =>
      decide (m.color.r = color.r) && decide (m.color.g = color.g) &&
      decide (m.color.b = color.b)) with
  | some existingMaterial => (existingMaterial.id, materials)
  | none =>
    let materialId := materials.length
    let m : MaterialInfo :=
      { id := materialId, color := color,
        name := if meshName = "" then "material_" ++ toString materialId
                else meshName ++ "_material" }
    (materialId, materials ++ [m])

/-- Lines 177–199: the re-based triangles of one leaf.  With an index
the loop reads positions `i`, `i + 1`, `i + 2` for `i = 0, 3, …` below
the index count and adds `vertexOffset` to each value; without one it
emits consecutive re-based position numbers. -/
def meshTrianglesAt (g : Geometry) (posCount vertexOffset : ℕ)
    (materialId : Option ℕ) : List GTriangle :=
  match g.index with
  | some idx =>
    (List.range ((idx.length + 2) / 3)).map (fun k =>
      ⟨(idx[3 * k]?).map (fun i => vertexOffset + i),
       (idx[3 * k + 1]?).map (fun i => vertexOffset + i),
       (idx[3 * k + 2]?).map (fun i => vertexOffset + i),
       materialId⟩)
  | none =>
    (List.range ((posCount + 2) / 3)).map (fun k =>
      ⟨some (vertexOffset + 3 * k), some (vertexOffset + 3 * k + 1),
       some (vertexOffset + 3 * k + 2), materialId⟩)

/-- The material-handling block of `processObject` (lines 133–162): no
registration when `mesh.material` is falsy; otherwise the material's
color, or the gray fallback, is looked up or registered, yielding the
material id used as the triangles' `pid`. -/
def materialResultId (md : MeshData) (materials : List MaterialInfo) :
    Option ℕ × List MaterialInfo :=
  match md.material with
  | .noMaterial => (none, materials)
  | .withColor c =>
    let r := registerColorId c md.name materials
    (some r.1, r.2)
  | .withoutColor =>
    let r := registerColorId defaultGray md.name materials
    (some r.1, r.2)

mutual

/-- `processObject` of the minimal exporter variant (lines 117–206):
after `object.updateMatrixWorld(true)` the node's mesh, if any, appends
its world-transformed vertices to the global vertex array and its
re-based triangles to the global triangle array; then the children are
visited in stored order. -/
def processObject (pw : Option Mat4) (obj : Object3D) (acc : ModelAcc) :
    Option ModelAcc :=
  match obj with
  | .mk mesh loc _ cs =>
    let world := freshWorld pw loc
    match mesh with
    | none => processList (some world) cs acc
    | some md =>
      match md.geometry.position with
      | none => none
      | some ps =>
        let vertexOffset := acc.vertices.length
        let mr := materialResultId md acc.materials
        let acc' : ModelAcc :=
          { vertices := acc.vertices ++ ps.map (applyMatrix4 world)
            triangles := acc.triangles ++
              meshTrianglesAt md.geometry ps.length vertexOffset mr.1
            materials := mr.2 }
        processList (some world) cs acc'

/-- The `object.children.forEach` recursion of `processObject`. -/
def processList (pw : Option Mat4) (objs : List Object3D) (acc : ModelAcc) :
    Option ModelAcc :=
  match objs with
  | [] => some acc
  | o :: rest =>
    match processObject pw o acc with
    | none => none
    | some acc' => processList pw rest acc'

end

/-- The single merged `<object>` the minimal variant's `createModelXML`
builds: an optional `basematerials` block (deleted when no material was
registered), the merged vertex list formatted with `toFixed(7)`, the
merged re-based triangle list, and the identity build transform. -/
structure MergedModel where
  basematerials : Option (List MaterialInfo)
  vertices : List Vec3
  triangles : List GTriangle
  buildTransform : String
deriving DecidableEq

/-- `createModelXML` of the minimal variant (lines 36–105), modelled at
the level of the object tree handed to the XML builder. -/
def createModelXML (object : Object3D) : Option MergedModel :=
  match processObject none object ⟨[], [], []⟩ with
  | none => none
  | some acc =>
    some { basematerials :=
             if 0 < acc.materials.length then some acc.materials else none
           vertices := acc.vertices.map (fun v =>
             ⟨jsToFixed 7 v.x, jsToFixed 7 v.y, jsToFixed 7 v.z⟩)
           triangles := acc.triangles
           buildTransform := "1 0 0 0 1 0 0 0 1 0 0 0" }

end Minimal3MF

namespace Legacy3MF

/-- A mesh as the legacy text-templated variant consumes it: its
geometry and the world matrix that `mesh.updateWorldMatrix(true, false)`
has just brought up to date. -/
structure LMesh where
  geometry : Geometry
  matrixWorld : Mat4
deriving DecidableEq

/-- Lines 86–101 of the legacy variant: the values of the emitted
`<vertex x=… y=… z=…/>` rows of one mesh — each position copied into a
fresh vector, transformed by the world matrix, scaled, and formatted
with `toFixed(6)`.  A missing position attribute makes
`positions.count` throw, modelled by `none`. -/
def vertexRows (scale : ℚ) (mesh : LMesh) : Option (List Vec3) :=
  match mesh.geometry.position with
  | none => none
  | some ps =>
    some (ps.map (fun p =>
      let v := applyMatrix4 mesh.matrixWorld p
      ⟨jsToFixed 6 (v.x * scale), jsToFixed 6 (v.y * scale),
       jsToFixed 6 (v.z * scale)⟩))

end Legacy3MF

mutual

/-- The leaf records the specification's SceneFlattener yields: for each
mesh node, in depth-first pre-order (children in stored order), the
node's freshly recomputed world transform (the composition of the local
matrices along the path from the root) paired with its mesh payload.
This is the specification-side description the traversal of the code is
compared against. -/
def preorderLeafRecords (pw : Option Mat4) : Object3D → List (Mat4 × MeshData)
  | .mk mesh loc _ cs =>
    let w := freshWorld pw loc
    (match mesh with | some md => [(w, md)] | none => []) ++
      preorderLeafRecordsList (some w) cs

/-- `preorderLeafRecords` over a list of siblings. -/
def preorderLeafRecordsList (pw : Option Mat4) : List Object3D → List (Mat4 × MeshData)
  | [] => []
  | t :: ts => preorderLeafRecords pw t ++ preorderLeafRecordsList pw ts

end

mutual

/-- A scene with no mesh leaves at all (the empty-scene scenario of the
specification). -/
def meshFree : Object3D → Bool
  | .mk mesh _ _ cs =>
    (match mesh with | none => true | some _ => false) && meshFreeList cs

/-- `meshFree` over a list of siblings. -/
def meshFreeList : List Object3D → Bool
  | [] => true
  | t :: ts => meshFree t && meshFreeList ts

end

/-- The number of vertices one mesh payload contributes. -/
def meshVertexCount (md : MeshData) : ℕ :=
  match md.geometry.position with
  | some ps => ps.length
  | none => 0

mutual

/-- The total number of vertices contributed by the leaves of a scene
(the `ΣVi` of the specification). -/
def totalVertexCount : Object3D → ℕ
  | .mk mesh _ _ cs =>
    (match mesh with | some md => meshVertexCount md | none => 0) +
      totalVertexCountList cs

/-- `totalVertexCount` over a list of siblings. -/
def totalVertexCountList : List Object3D → ℕ
  | [] => 0
  | t :: ts => totalVertexCount t + totalVertexCountList ts

end

/-- Validity of the per-leaf triangle data of one mesh: an index list
whose length is a multiple of three, every entry below the leaf's
vertex count (for non-indexed geometry, a vertex count that is a
multiple of three).  Exactly under this condition every triangle the
exporters generate for the leaf carries defined indices that are valid
for the owning leaf. -/
def meshIndicesOk (md : MeshData) : Bool :=
  match md.geometry.position with
  | none => true
  | some ps =>
    match md.geometry.index with
    | some idx => decide (idx.length % 3 = 0) && idx.all (fun i => i < ps.length)
    | none => decide (ps.length % 3 = 0)

mutual

/-- Every leaf of the scene has valid per-leaf triangle data. -/
def leafIndicesOk : Object3D → Bool
  | .mk mesh _ _ cs =>
    (match mesh with | some md => meshIndicesOk md | none => true) &&
      leafIndicesOkList cs

/-- `leafIndicesOk` over a list of siblings. -/
def leafIndicesOkList : List Object3D → Bool
  | [] => true
  | t :: ts => leafIndicesOk t && leafIndicesOkList ts

end

/-! Helper lemmas. -/

/-- Rounding to `d` decimals moves a value by at most half of the last
written decimal place. -/
theorem abs_jsToFixed_sub_le (d : ℕ) (q : ℚ) :
    |jsToFixed d q - q| ≤ 1 / (2 * 10 ^ d) := by
  have hD : (0 : ℚ) < 10 ^ d := by positivity
  have h1 : ((⌊q * 10 ^ d + 1 / 2⌋ : ℤ) : ℚ) ≤ q * 10 ^ d + 1 / 2 :=
    Int.floor_le _
  have h2 : q * 10 ^ d + 1 / 2 < (⌊q * 10 ^ d + 1 / 2⌋ : ℤ) + 1 :=
    Int.lt_floor_add_one _
  have key : |((⌊q * 10 ^ d + 1 / 2⌋ : ℤ) : ℚ) - q * 10 ^ d| ≤ 1 / 2 := by
    rw [abs_le]
    constructor <;> linarith
  have hrw : jsToFixed d q - q =
      (((⌊q * 10 ^ d + 1 / 2⌋ : ℤ) : ℚ) - q * 10 ^ d) / 10 ^ d := by
    rw [jsToFixed]
    field_simp
    ring
  have hhalf : (1 : ℚ) / (2 * 10 ^ d) = (1 / 2) / 10 ^ d := by ring
  rw [hrw, abs_div, abs_of_pos hD, hhalf]
  gcongr

/-- The channel-comparison predicate of the linear material scans holds
exactly on exact color equality. -/
theorem colorScanPred_iff (a c : ThreeColor) :
    (decide (a.r = c.r) && decide (a.g = c.g) && decide (a.b = c.b)) = true ↔
      a = c := by
  constructor
  · intro h
    simp only [Bool.and_eq_true, decide_eq_true_eq] at h
    exact ThreeColor.ext h.1.1 h.1.2 h.2
  · intro h
    subst h
    simp

/-- Material ids and extruder slots enumerate positions starting at `k`. -/
def idsEnumeratedFrom : List ThreeMF.MaterialInfo → ℕ → Prop
  | [], _ => True
  | m :: rest, k => m.id = k ∧ m.extruder = k + 1 ∧ idsEnumeratedFrom rest (k + 1)

/-- The registry invariant of the slicer-compatible exporter's material
table: entry at position `k` has `id = k` and `extruder = k + 1`, and no
two entries have exactly equal color channels. -/
def MaterialTableInv (mats : List ThreeMF.MaterialInfo) : Prop :=
  idsEnumeratedFrom mats 0 ∧
    List.Pairwise (fun a b => a.color ≠ b.color) mats

theorem idsEnumeratedFrom_append (l l' : List ThreeMF.MaterialInfo) (k : ℕ) :
    idsEnumeratedFrom (l ++ l') k ↔
      idsEnumeratedFrom l k ∧ idsEnumeratedFrom l' (k + l.length) := by
  induction l generalizing k with
  | nil => simp [idsEnumeratedFrom]
  | cons m rest ih =>
    have hlen : k + (rest.length + 1) = k + 1 + rest.length := by omega
    simp only [List.cons_append, idsEnumeratedFrom, List.append_eq, ih,
      List.length_cons, hlen, and_assoc]

theorem idsEnumeratedFrom_get (l : List ThreeMF.MaterialInfo) (k : ℕ)
    (h : idsEnumeratedFrom l k) :
    ∀ j, (hj : j < l.length) →
      (l.get ⟨j, hj⟩).id = k + j ∧ (l.get ⟨j, hj⟩).extruder = k + j + 1 := by
  induction l generalizing k with
  | nil => intro j hj; simp at hj
  | cons m rest ih =>
    intro j hj
    cases j with
    | zero => simpa using ⟨h.1, h.2.1⟩
    | succ j' =>
      have := ih (k + 1) h.2.2 j' (by simpa using Nat.lt_of_succ_lt_succ hj)
      constructor
      · simpa [Nat.add_assoc, Nat.add_comm 1 j'] using this.1
      · simpa [Nat.add_assoc, Nat.add_comm 1 j'] using this.2

/-- The material returned by the registry scan carries exactly the
requested color. -/
theorem registerColor_color (color : ThreeColor) (nm : String)
    (mats : List ThreeMF.MaterialInfo) :
    (ThreeMF.registerColor color nm mats).1.color = color := by
  cases hf : mats.find? (fun m =>
      decide (m.color.r = color.r) && decide (m.color.g = color.g) &&
      decide (m.color.b = color.b)) with
  | none => simp [ThreeMF.registerColor, hf]
  | some existing =>
    have hp := List.find?_some hf
    simp only [ThreeMF.registerColor, hf]
    exact (colorScanPred_iff existing.color color).mp hp

/-- The material returned by the registry scan is a member of the
resulting table. -/
theorem registerColor_mem (color : ThreeColor) (nm : String)
    (mats : List ThreeMF.MaterialInfo) :
    (ThreeMF.registerColor color nm mats).1 ∈ (ThreeMF.registerColor color nm mats).2 := by
  cases hf : mats.find? (fun m =>
      decide (m.color.r = color.r) && decide (m.color.g = color.g) &&
      decide (m.color.b = color.b)) with
  | none => simp [ThreeMF.registerColor, hf]
  | some existing =>
    simp only [ThreeMF.registerColor, hf]
    exact List.mem_of_find?_eq_some hf

/-- Registration only ever appends to the table. -/
theorem registerColor_extends (color : ThreeColor) (nm : String)
    (mats : List ThreeMF.MaterialInfo) :
    ∃ ext, (ThreeMF.registerColor color nm mats).2 = mats ++ ext := by
  cases hf : mats.find? (fun m =>
      decide (m.color.r = color.r) && decide (m.color.g = color.g) &&
      decide (m.color.b = color.b)) with
  | none =>
    refine ⟨[⟨mats.length, color, ThreeMF.materialName nm mats.length,
      mats.length + 1⟩], ?_⟩
    simp [ThreeMF.registerColor, hf]
  | some existing =>
    refine ⟨[], ?_⟩
    simp [ThreeMF.registerColor, hf]

/-- Registering a color not present in the table appends the entry with
`id = table.length` and `extruder = table.length + 1`. -/
theorem registerColor_fresh (color : ThreeColor) (nm : String)
    (mats : List ThreeMF.MaterialInfo) (h : ∀ m ∈ mats, m.color ≠ color) :
    ThreeMF.registerColor color nm mats =
      (⟨mats.length, color, ThreeMF.materialName nm mats.length, mats.length + 1⟩,
       mats ++ [⟨mats.length, color, ThreeMF.materialName nm mats.length,
         mats.length + 1⟩]) := by
  have hf : mats.find? (fun m =>
      decide (m.color.r = color.r) && decide (m.color.g = color.g) &&
      decide (m.color.b = color.b)) = none := by
    rw [List.find?_eq_none]
    intro m hm hp
    exact h m hm ((colorScanPred_iff m.color color).mp hp)
  simp [ThreeMF.registerColor, hf]

/-- Registration preserves the registry invariant. -/
theorem registerColor_inv (color : ThreeColor) (nm : String)
    (mats : List ThreeMF.MaterialInfo) (h : MaterialTableInv mats) :
    MaterialTableInv (ThreeMF.registerColor color nm mats).2 := by
  cases hf : mats.find? (fun m =>
      decide (m.color.r = color.r) && decide (m.color.g = color.g) &&
      decide (m.color.b = color.b)) with
  | some existing => simpa [ThreeMF.registerColor, hf] using h
  | none =>
    have hfresh : ∀ m ∈ mats, m.color ≠ color := by
      intro m hm heq
      exact List.find?_eq_none.mp hf m hm
        ((colorScanPred_iff m.color color).mpr heq)
    rw [registerColor_fresh color nm mats hfresh]
    constructor
    · rw [idsEnumeratedFrom_append]
      exact ⟨h.1, by simp [idsEnumeratedFrom]⟩
    · rw [List.pairwise_append]
      refine ⟨h.2, List.pairwise_singleton _ _, ?_⟩
      intro a ha b hb
      simp only [List.mem_singleton] at hb
      subst hb
      exact hfresh a ha

/-- In a table without duplicate colors, members are determined by their
color. -/
theorem pairwise_color_inj (mats : List ThreeMF.MaterialInfo)
    (h : List.Pairwise (fun a b => a.color ≠ b.color) mats) :
    ∀ m1 ∈ mats, ∀ m2 ∈ mats, m1.color = m2.color → m1 = m2 := by
  induction mats with
  | nil => simp
  | cons a l ih =>
    intro m1 h1 m2 h2 hc
    rw [List.mem_cons] at h1 h2
    have hhead := (List.pairwise_cons.mp h).1
    have htail := (List.pairwise_cons.mp h).2
    rcases h1 with h1 | h1
    · rcases h2 with h2 | h2
      · rw [h1, h2]
      · subst h1
        exact absurd hc (hhead m2 h2)
    · rcases h2 with h2 | h2
      · subst h2
        exact absurd hc.symm (hhead m1 h1)
      · exact ih htail m1 h1 m2 h2 hc

/-- The material-handling block only ever appends to the table. -/
theorem materialResult_extends (md : MeshData) (mats : List ThreeMF.MaterialInfo) :
    ∃ ext, (ThreeMF.materialResult md mats).2 = mats ++ ext := by
  cases hmat : md.material with
  | noMaterial => exact ⟨[], by simp [ThreeMF.materialResult, hmat]⟩
  | withColor c =>
    simpa [ThreeMF.materialResult, hmat] using
      registerColor_extends c md.name mats
  | withoutColor =>
    simpa [ThreeMF.materialResult, hmat] using
      registerColor_extends defaultGray md.name mats

/-- The material the material-handling block picks, when any, is a
member of the resulting table. -/
theorem materialResult_mem (md : MeshData) (mats : List ThreeMF.MaterialInfo) :
    ∀ m, (ThreeMF.materialResult md mats).1 = some m →
      m ∈ (ThreeMF.materialResult md mats).2 := by
  intro m hm
  cases hmat : md.material with
  | noMaterial => simp [ThreeMF.materialResult, hmat] at hm
  | withColor c =>
    simp only [ThreeMF.materialResult, hmat, Option.some.injEq] at hm
    simp only [ThreeMF.materialResult, hmat]
    rw [← hm]
    exact registerColor_mem c md.name mats
  | withoutColor =>
    simp only [ThreeMF.materialResult, hmat, Option.some.injEq] at hm
    simp only [ThreeMF.materialResult, hmat]
    rw [← hm]
    exact registerColor_mem defaultGray md.name mats

/-- The material-handling block preserves the registry invariant. -/
theorem materialResult_inv (md : MeshData) (mats : List ThreeMF.MaterialInfo)
    (h : MaterialTableInv mats) :
    MaterialTableInv (ThreeMF.materialResult md mats).2 := by
  cases hmat : md.material with
  | noMaterial => simpa [ThreeMF.materialResult, hmat] using h
  | withColor c =>
    simpa [ThreeMF.materialResult, hmat] using
      registerColor_inv c md.name mats h
  | withoutColor =>
    simpa [ThreeMF.materialResult, hmat] using
      registerColor_inv defaultGray md.name mats h

/-- The mesh branch on a present position attribute: one component is
appended, built from the transformed vertices, the collected triangles
and the picked material. -/
theorem processMesh_of_pos (world : Mat4) (md : MeshData)
    (comps : List ThreeMF.ComponentInfo) (mats : List ThreeMF.MaterialInfo)
    (ps : List Vec3) (hpos : md.geometry.position = some ps) :
    ThreeMF.processMesh world md comps mats = some
      (comps ++ [{ id := 100 + comps.length
                   vertices := ps.map (applyMatrix4 world)
                   triangles := ThreeMF.meshTriangles md.geometry ps.length
                   material := (ThreeMF.materialResult md mats).1
                   name := if md.name = "" then
                             "Default-" ++ toString (100 + comps.length)
                           else md.name }],
        (ThreeMF.materialResult md mats).2) := by
  simp [ThreeMF.processMesh, hpos]

/-- The mesh branch on a missing position attribute throws. -/
theorem processMesh_of_none (world : Mat4) (md : MeshData)
    (comps : List ThreeMF.ComponentInfo) (mats : List ThreeMF.MaterialInfo)
    (hpos : md.geometry.position = none) :
    ThreeMF.processMesh world md comps mats = none := by
  simp [ThreeMF.processMesh, hpos]

/-- Every component's material reference, when present, points into the
shared material table. -/
def componentMaterialsIn (comps : List ThreeMF.ComponentInfo)
    (mats : List ThreeMF.MaterialInfo) : Prop :=
  ∀ c ∈ comps, ∀ m, c.material = some m → m ∈ mats

/-- How one collection step relates the accumulator before and after:
the material table is only appended to, the registry invariant is
preserved, and component material references stay inside the table. -/
def AccInv (start fin : List ThreeMF.ComponentInfo × List ThreeMF.MaterialInfo) :
    Prop :=
  (∃ ext, fin.2 = start.2 ++ ext) ∧
  (MaterialTableInv start.2 → MaterialTableInv fin.2) ∧
  (componentMaterialsIn start.1 start.2 → componentMaterialsIn fin.1 fin.2)

theorem AccInv_refl (a : List ThreeMF.ComponentInfo × List ThreeMF.MaterialInfo) :
    AccInv a a :=
  ⟨⟨[], by simp⟩, id, id⟩

theorem AccInv_trans
    (a b c : List ThreeMF.ComponentInfo × List ThreeMF.MaterialInfo)
    (h1 : AccInv a b) (h2 : AccInv b c) : AccInv a c := by
  obtain ⟨⟨e1, he1⟩, i1, c1⟩ := h1
  obtain ⟨⟨e2, he2⟩, i2, c2⟩ := h2
  exact ⟨⟨e1 ++ e2, by rw [he2, he1, List.append_assoc]⟩,
    fun h => i2 (i1 h), fun h => c2 (c1 h)⟩

/-- A successful mesh step satisfies the accumulator invariant. -/
theorem processMesh_accInv (world : Mat4) (md : MeshData)
    (comps : List ThreeMF.ComponentInfo) (mats : List ThreeMF.MaterialInfo)
    (r : List ThreeMF.ComponentInfo × List ThreeMF.MaterialInfo)
    (hpm : ThreeMF.processMesh world md comps mats = some r) :
    AccInv (comps, mats) r := by
  obtain ⟨ps, hpos⟩ : ∃ ps, md.geometry.position = some ps := by
    cases hpos : md.geometry.position with
    | none =>
      rw [processMesh_of_none world md comps mats hpos] at hpm
      exact absurd hpm (by simp)
    | some ps => exact ⟨ps, rfl⟩
  have heq := processMesh_of_pos world md comps mats ps hpos
  rw [hpm] at heq
  have hr := Option.some.inj heq
  subst hr
  refine ⟨materialResult_extends md mats, fun h => materialResult_inv md mats h, ?_⟩
  intro h c hc m hm
  rcases List.mem_append.mp hc with hc | hc
  · obtain ⟨ext, hext⟩ := materialResult_extends md mats
    rw [hext]
    exact List.mem_append_left _ (h c hc m hm)
  · simp only [List.mem_singleton] at hc
    subst hc
    exact materialResult_mem md mats m hm

mutual

/-- Every successful run of `collectComponents` satisfies the
accumulator invariant. -/
theorem collect_accInv (pw : Option Mat4) (t : Object3D)
    (comps : List ThreeMF.ComponentInfo) (mats : List ThreeMF.MaterialInfo)
    (res : List ThreeMF.ComponentInfo × List ThreeMF.MaterialInfo)
    (h : ThreeMF.collectComponents pw t comps mats = some res) :
    AccInv (comps, mats) res := by
  cases t with
  | mk mesh loc mw cs =>
    simp only [ThreeMF.collectComponents] at h
    split at h
    · exact collectChildren_accInv _ _ _ _ _ h
    · split at h
      · exact absurd h (by simp)
      · rename_i md r hpm
        exact AccInv_trans _ _ _ (processMesh_accInv _ _ _ _ _ hpm)
          (collectChildren_accInv _ _ _ _ _ h)

/-- Every successful run of the child recursion satisfies the
accumulator invariant. -/
theorem collectChildren_accInv (pw : Option Mat4) (ts : List Object3D)
    (comps : List ThreeMF.ComponentInfo) (mats : List ThreeMF.MaterialInfo)
    (res : List ThreeMF.ComponentInfo × List ThreeMF.MaterialInfo)
    (h : ThreeMF.collectChildren pw ts comps mats = some res) :
    AccInv (comps, mats) res := by
  cases ts with
  | nil =>
    simp only [ThreeMF.collectChildren] at h
    have hr := Option.some.inj h
    subst hr
    exact AccInv_refl _
  | cons o rest =>
    simp only [ThreeMF.collectChildren] at h
    split at h
    · exact absurd h (by simp)
    · rename_i r ho
      exact AccInv_trans _ _ _ (collect_accInv _ _ _ _ _ ho)
        (collectChildren_accInv _ _ _ _ _ h)

end

mutual

/-- Refreshing the world-matrix caches leaves every mesh payload (vertex
data, triangle indices, material assignment, name) untouched. -/
theorem sceneMeshes_update (pw : Option Mat4) (t : Object3D) :
    sceneMeshes (updateMatrixWorld pw t) = sceneMeshes t := by
  cases t with
  | mk mesh loc mw cs =>
    simp only [updateMatrixWorld, sceneMeshes]
    rw [sceneMeshesList_update]

/-- List version of `sceneMeshes_update`. -/
theorem sceneMeshesList_update (pw : Option Mat4) (ts : List Object3D) :
    sceneMeshesList (updateMatrixWorldList pw ts) = sceneMeshesList ts := by
  cases ts with
  | nil => rfl
  | cons t rest =>
    simp only [updateMatrixWorldList, sceneMeshesList]
    rw [sceneMeshes_update, sceneMeshesList_update]

end

mutual

/-- Refreshing the world-matrix caches leaves every local transform
untouched. -/
theorem sceneLocalMatrices_update (pw : Option Mat4) (t : Object3D) :
    sceneLocalMatrices (updateMatrixWorld pw t) = sceneLocalMatrices t := by
  cases t with
  | mk mesh loc mw cs =>
    simp only [updateMatrixWorld, sceneLocalMatrices]
    rw [sceneLocalMatricesList_update]

/-- List version of `sceneLocalMatrices_update`. -/
theorem sceneLocalMatricesList_update (pw : Option Mat4) (ts : List Object3D) :
    sceneLocalMatricesList (updateMatrixWorldList pw ts) = sceneLocalMatricesList ts := by
  cases ts with
  | nil => rfl
  | cons t rest =>
    simp only [updateMatrixWorldList, sceneLocalMatricesList]
    rw [sceneLocalMatrices_update, sceneLocalMatricesList_update]

end

mutual

/-- The collection result does not depend on the cached world matrices:
running it on a scene whose caches were overwritten by any
`updateMatrixWorld` pass gives the very same result. -/
theorem collect_cacheInv (pw q : Option Mat4) (t : Object3D)
    (comps : List ThreeMF.ComponentInfo) (mats : List ThreeMF.MaterialInfo) :
    ThreeMF.collectComponents pw (updateMatrixWorld q t) comps mats =
      ThreeMF.collectComponents pw t comps mats := by
  cases t with
  | mk mesh loc mw cs =>
    simp only [updateMatrixWorld, ThreeMF.collectComponents]
    cases mesh with
    | none => exact collectChildren_cacheInv _ _ _ _ _
    | some md =>
      cases hpm : ThreeMF.processMesh (freshWorld pw loc) md comps mats with
      | none => simp [hpm]
      | some r =>
        simp only [hpm]
        exact collectChildren_cacheInv _ _ _ _ _

/-- List version of `collect_cacheInv`. -/
theorem collectChildren_cacheInv (pw q : Option Mat4) (ts : List Object3D)
    (comps : List ThreeMF.ComponentInfo) (mats : List ThreeMF.MaterialInfo) :
    ThreeMF.collectChildren pw (updateMatrixWorldList q ts) comps mats =
      ThreeMF.collectChildren pw ts comps mats := by
  cases ts with
  | nil => rfl
  | cons o rest =>
    simp only [updateMatrixWorldList, ThreeMF.collectChildren]
    rw [collect_cacheInv]
    cases ho : ThreeMF.collectComponents pw o comps mats with
    | none => rfl
    | some r => exact collectChildren_cacheInv _ _ _ _ _

end

/-- The vertex and triangle data one leaf record contributes: vertices
sampled through the record's (freshly composed) world transform, and
the triangles collected from its geometry. -/
def leafShape (r : Mat4 × MeshData) : List Vec3 × List ThreeMF.Triangle3 :=
  ((r.2.geometry.position.getD []).map (applyMatrix4 r.1),
   ThreeMF.meshTriangles r.2.geometry (r.2.geometry.position.getD []).length)

mutual

/-- A successful collection emits exactly the depth-first pre-order
leaf records, each with vertices transformed by the freshly composed
world matrix. -/
theorem collect_shape (pw : Option Mat4) (t : Object3D)
    (comps : List ThreeMF.ComponentInfo) (mats : List ThreeMF.MaterialInfo)
    (res : List ThreeMF.ComponentInfo × List ThreeMF.MaterialInfo)
    (h : ThreeMF.collectComponents pw t comps mats = some res) :
    res.1.map (fun c => (c.vertices, c.triangles)) =
      comps.map (fun c => (c.vertices, c.triangles)) ++
        (preorderLeafRecords pw t).map leafShape := by
  cases t with
  | mk mesh loc mw cs =>
    cases mesh with
    | none =>
      simp only [ThreeMF.collectComponents] at h
      rw [collectChildren_shape _ _ _ _ _ h, preorderLeafRecords]
      simp
    | some md =>
      simp only [ThreeMF.collectComponents] at h
      cases hpm : ThreeMF.processMesh (freshWorld pw loc) md comps mats with
      | none =>
        rw [hpm] at h
        exact absurd h (by simp)
      | some r =>
        rw [hpm] at h
        obtain ⟨ps, hpos⟩ : ∃ ps, md.geometry.position = some ps := by
          cases hpos : md.geometry.position with
          | none =>
            rw [processMesh_of_none _ md comps mats hpos] at hpm
            exact absurd hpm (by simp)
          | some ps => exact ⟨ps, rfl⟩
        have heq := processMesh_of_pos (freshWorld pw loc) md comps mats ps hpos
        rw [hpm] at heq
        have hr := Option.some.inj heq
        subst hr
        rw [collectChildren_shape _ _ _ _ _ h, preorderLeafRecords]
        simp [leafShape, hpos, List.map_append]

/-- List version of `collect_shape`. -/
theorem collectChildren_shape (pw : Option Mat4) (ts : List Object3D)
    (comps : List ThreeMF.ComponentInfo) (mats : List ThreeMF.MaterialInfo)
    (res : List ThreeMF.ComponentInfo × List ThreeMF.MaterialInfo)
    (h : ThreeMF.collectChildren pw ts comps mats = some res) :
    res.1.map (fun c => (c.vertices, c.triangles)) =
      comps.map (fun c => (c.vertices, c.triangles)) ++
        (preorderLeafRecordsList pw ts).map leafShape := by
  cases ts with
  | nil =>
    simp only [ThreeMF.collectChildren] at h
    have hr := Option.some.inj h
    subst hr
    simp [preorderLeafRecordsList]
  | cons o rest =>
    simp only [ThreeMF.collectChildren] at h
    split at h
    · exact absurd h (by simp)
    · rename_i r ho
      rw [collectChildren_shape _ _ _ _ _ h, collect_shape _ _ _ _ _ ho,
        preorderLeafRecordsList]
      simp [List.map_append]

end

/-- A triangle whose three re-based indices are all defined and below
`n` (the merged vertex count). -/
def TriangleOkUpTo (n : ℕ) (tr : Minimal3MF.GTriangle) : Prop :=
  (∃ a, tr.v1 = some a ∧ a < n) ∧ (∃ a, tr.v2 = some a ∧ a < n) ∧
    (∃ a, tr.v3 = some a ∧ a < n)

theorem TriangleOkUpTo_mono (n m : ℕ) (tr : Minimal3MF.GTriangle)
    (h : TriangleOkUpTo n tr) (hnm : n ≤ m) : TriangleOkUpTo m tr := by
  obtain ⟨⟨a, ha, ha'⟩, ⟨b, hb, hb'⟩, ⟨c, hc, hc'⟩⟩ := h
  exact ⟨⟨a, ha, lt_of_lt_of_le ha' hnm⟩, ⟨b, hb, lt_of_lt_of_le hb' hnm⟩,
    ⟨c, hc, lt_of_lt_of_le hc' hnm⟩⟩

/-- The re-based triangles of one valid leaf all carry defined indices
below the leaf's offset plus its vertex count. -/
theorem meshTrianglesAt_ok (md : MeshData) (ps : List Vec3)
    (hpos : md.geometry.position = some ps) (hok : meshIndicesOk md = true)
    (offset : ℕ) (mid : Option ℕ) :
    ∀ tr ∈ Minimal3MF.meshTrianglesAt md.geometry ps.length offset mid,
      TriangleOkUpTo (offset + ps.length) tr := by
  intro tr htr
  rw [Minimal3MF.meshTrianglesAt] at htr
  rw [meshIndicesOk, hpos] at hok
  cases hidx : md.geometry.index with
  | some idx =>
    rw [hidx] at htr hok
    simp only [List.mem_map, List.mem_range] at htr
    obtain ⟨k, hk, rfl⟩ := htr
    simp only [Bool.and_eq_true, decide_eq_true_eq, List.all_eq_true] at hok
    obtain ⟨hmod, hall⟩ := hok
    have hslot : ∀ j, j < idx.length →
        ∃ a, (idx[j]?).map (fun i => offset + i) = some a ∧
          a < offset + ps.length := by
      intro j hj
      refine ⟨offset + idx[j], ?_, ?_⟩
      · rw [List.getElem?_eq_getElem hj]
        rfl
      · have hv := hall (idx[j]) (idx.getElem_mem hj)
        omega
    exact ⟨hslot (3 * k) (by omega), hslot (3 * k + 1) (by omega),
      hslot (3 * k + 2) (by omega)⟩
  | none =>
    rw [hidx] at htr hok
    simp only [List.mem_map, List.mem_range] at htr
    obtain ⟨k, hk, rfl⟩ := htr
    rw [decide_eq_true_eq] at hok
    exact ⟨⟨offset + 3 * k, rfl, by omega⟩,
      ⟨offset + 3 * k + 1, rfl, by omega⟩,
      ⟨offset + 3 * k + 2, rfl, by omega⟩⟩

mutual

/-- A successful merged traversal adds exactly the scene's total vertex
count, and under valid per-leaf triangle data keeps every re-based
triangle index defined and below the merged vertex count. -/
theorem processObject_counts (pw : Option Mat4) (t : Object3D)
    (acc : Minimal3MF.ModelAcc) (res : Minimal3MF.ModelAcc)
    (h : Minimal3MF.processObject pw t acc = some res) :
    res.vertices.length = acc.vertices.length + totalVertexCount t ∧
    (leafIndicesOk t = true →
      (∀ tr ∈ acc.triangles, TriangleOkUpTo acc.vertices.length tr) →
      ∀ tr ∈ res.triangles, TriangleOkUpTo res.vertices.length tr) := by
  cases t with
  | mk mesh loc mw cs =>
    cases mesh with
    | none =>
      simp only [Minimal3MF.processObject] at h
      have hrec := processList_counts _ _ _ _ h
      constructor
      · rw [totalVertexCount]
        simpa using hrec.1
      · intro hok hacc
        rw [leafIndicesOk] at hok
        simp only [Bool.true_and] at hok
        exact hrec.2 hok hacc
    | some md =>
      simp only [Minimal3MF.processObject] at h
      cases hpos : md.geometry.position with
      | none =>
        rw [hpos] at h
        exact absurd h (by simp)
      | some ps =>
        rw [hpos] at h
        have hrec := processList_counts _ _ _ _ h
        have hlen : (acc.vertices ++ ps.map (applyMatrix4 (freshWorld pw loc))).length
            = acc.vertices.length + ps.length := by
          simp
        constructor
        · rw [totalVertexCount]
          have hv1 := hrec.1
          simp only [hlen] at hv1
          rw [hv1]
          simp only [meshVertexCount, hpos]
          omega
        · intro hok hacc
          rw [leafIndicesOk] at hok
          simp only [Bool.and_eq_true] at hok
          refine hrec.2 hok.2 ?_
          intro tr htr
          simp only [List.mem_append] at htr
          rcases htr with htr | htr
          · refine TriangleOkUpTo_mono _ _ _ (hacc tr htr) ?_
            rw [hlen]
            omega
          · have := meshTrianglesAt_ok md ps hpos hok.1 acc.vertices.length
              (Minimal3MF.materialResultId md acc.materials).1 tr htr
            rw [hlen]
            exact this

/-- List version of `processObject_counts`. -/
theorem processList_counts (pw : Option Mat4) (ts : List Object3D)
    (acc : Minimal3MF.ModelAcc) (res : Minimal3MF.ModelAcc)
    (h : Minimal3MF.processList pw ts acc = some res) :
    res.vertices.length = acc.vertices.length + totalVertexCountList ts ∧
    (leafIndicesOkList ts = true →
      (∀ tr ∈ acc.triangles, TriangleOkUpTo acc.vertices.length tr) →
      ∀ tr ∈ res.triangles, TriangleOkUpTo res.vertices.length tr) := by
  cases ts with
  | nil =>
    simp only [Minimal3MF.processList] at h
    have hr := Option.some.inj h
    subst hr
    exact ⟨by simp [totalVertexCountList], fun _ hacc => hacc⟩
  | cons o rest =>
    simp only [Minimal3MF.processList] at h
    cases ho : Minimal3MF.processObject pw o acc with
    | none =>
      rw [ho] at h
      exact absurd h (by simp)
    | some acc' =>
      rw [ho] at h
      have h1 := processObject_counts _ _ _ _ ho
      have h2 := processList_counts _ _ _ _ h
      constructor
      · rw [totalVertexCountList, h2.1, h1.1]
        omega
      · intro hok hacc
        rw [leafIndicesOkList] at hok
        simp only [Bool.and_eq_true] at hok
        exact h2.2 hok.2 (h1.2 hok.1 hacc)

end

mutual

/-- Collecting over a scene without mesh leaves leaves the accumulators
untouched and succeeds. -/
theorem collect_meshFree (pw : Option Mat4) (t : Object3D)
    (comps : List ThreeMF.ComponentInfo) (mats : List ThreeMF.MaterialInfo)
    (h : meshFree t = true) :
    ThreeMF.collectComponents pw t comps mats = some (comps, mats) := by
  cases t with
  | mk mesh loc mw cs =>
    simp only [meshFree] at h
    cases mesh with
    | none =>
      simp only [Bool.true_and] at h
      simp only [ThreeMF.collectComponents]
      exact collectChildren_meshFree _ _ _ _ h
    | some md => simp at h

/-- List version of `collect_meshFree`. -/
theorem collectChildren_meshFree (pw : Option Mat4) (ts : List Object3D)
    (comps : List ThreeMF.ComponentInfo) (mats : List ThreeMF.MaterialInfo)
    (h : meshFreeList ts = true) :
    ThreeMF.collectChildren pw ts comps mats = some (comps, mats) := by
  cases ts with
  | nil => rfl
  | cons o rest =>
    rw [meshFreeList] at h
    simp only [Bool.and_eq_true] at h
    simp only [ThreeMF.collectChildren]
    rw [collect_meshFree _ _ _ _ h.1]
    exact collectChildren_meshFree _ _ _ _ h.2

end

mutual

/-- The merged traversal over a scene without mesh leaves leaves the
accumulator untouched and succeeds. -/
theorem processObject_meshFree (pw : Option Mat4) (t : Object3D)
    (acc : Minimal3MF.ModelAcc) (h : meshFree t = true) :
    Minimal3MF.processObject pw t acc = some acc := by
  cases t with
  | mk mesh loc mw cs =>
    simp only [meshFree] at h
    cases mesh with
    | none =>
      simp only [Bool.true_and] at h
      simp only [Minimal3MF.processObject]
      exact processList_meshFree _ _ _ h
    | some md => simp at h

/-- List version of `processObject_meshFree`. -/
theorem processList_meshFree (pw : Option Mat4) (ts : List Object3D)
    (acc : Minimal3MF.ModelAcc) (h : meshFreeList ts = true) :
    Minimal3MF.processList pw ts acc = some acc := by
  cases ts with
  | nil => rfl
  | cons o rest =>
    rw [meshFreeList] at h
    simp only [Bool.and_eq_true] at h
    simp only [Minimal3MF.processList]
    rw [processObject_meshFree _ _ _ h.1]
    exact processList_meshFree _ _ _ h.2

end

/-! Concrete test fixtures used by witnesses and counterexamples. -/

/-- The color `#FFA500` as channel values. -/
def orangeColor : ThreeColor := ⟨1, 165 / 255, 0⟩

/-- Three vertices of a unit triangle. -/
def unitTriangle : List Vec3 := [⟨0, 0, 0⟩, ⟨1, 0, 0⟩, ⟨0, 1, 0⟩]

/-- Four vertices of a unit square. -/
def squareVerts : List Vec3 := [⟨0, 0, 0⟩, ⟨1, 0, 0⟩, ⟨1, 1, 0⟩, ⟨0, 1, 0⟩]

/-- Two triangles triangulating the unit square. -/
def squareIdx : List ℕ := [0, 1, 2, 0, 2, 3]

/-- Translation by `(10, 0, 0)`. -/
def translate10 : Mat4 := ⟨1, 0, 0, 10, 0, 1, 0, 0, 0, 0, 1, 0, 0, 0, 0, 1⟩

/-- The specification's two-leaf scenario: leaf A, a unit square with
color `#FFA500`; leaf B, the same square translated by `(10, 0, 0)`,
same color. -/
def sceneSquares : Object3D :=
  .mk none identity4 identity4
    [.mk (some ⟨⟨some squareVerts, some squareIdx⟩, .withColor orangeColor, "A"⟩)
       identity4 identity4 [],
     .mk (some ⟨⟨some squareVerts, some squareIdx⟩, .withColor orangeColor, "B"⟩)
       translate10 identity4 []]

/-- A scene with one mesh leaf that has no assigned material. -/
def sceneNoMat : Object3D :=
  .mk none identity4 identity4
    [.mk (some ⟨⟨some unitTriangle, none⟩, .noMaterial, "N"⟩)
       identity4 identity4 []]

/-- A scene with one mesh leaf whose geometry misses the position
attribute. -/
def sceneMissingPos : Object3D :=
  .mk none identity4 identity4
    [.mk (some ⟨⟨none, none⟩, .withColor orangeColor, "M"⟩)
       identity4 identity4 []]

/-- A group with no mesh leaves. -/
def emptyScene : Object3D := .mk none identity4 identity4 []

/-! Claim theorems. -/

/-- C1: for every input scene, the material registry deduplicates colors
by exact channel equality — two leaves with identical RGB color always
receive the same material id, the material table never contains two
entries with identical channels, entry `k` of the table has `id = k`
and `extruder = k + 1` (1-based, insertion order preserved), and a
color not yet in the table is appended with `id = table.length` and
`extruder = table.length + 1`. -/
theorem C1_material_registry_dedup (t : Object3D)
    (comps : List ThreeMF.ComponentInfo) (mats : List ThreeMF.MaterialInfo)
    (h : ThreeMF.collectComponents none t [] [] = some (comps, mats)) :
    (∀ k, (hk : k < mats.length) →
      (mats.get ⟨k, hk⟩).id = k ∧ (mats.get ⟨k, hk⟩).extruder = k + 1) ∧
    List.Pairwise (fun a b => a.color ≠ b.color) mats ∧
    (∀ c1 ∈ comps, ∀ c2 ∈ comps, ∀ m1 m2,
      c1.material = some m1 → c2.material = some m2 →
      m1.color = m2.color → m1.id = m2.id) ∧
    (∀ color nm tbl, (∀ m ∈ tbl, m.color ≠ color) →
      ThreeMF.registerColor color nm tbl =
        (⟨tbl.length, color, ThreeMF.materialName nm tbl.length, tbl.length + 1⟩,
         tbl ++ [⟨tbl.length, color, ThreeMF.materialName nm tbl.length,
           tbl.length + 1⟩])) := by
  have hinv := collect_accInv none t [] [] (comps, mats) h
  have hTable : MaterialTableInv mats :=
    hinv.2.1 ⟨trivial, List.Pairwise.nil⟩
  have hcm : componentMaterialsIn comps mats :=
    hinv.2.2 (fun c hc => absurd hc (List.not_mem_nil c))
  refine ⟨?_, hTable.2, ?_, registerColor_fresh⟩
  · intro k hk
    simpa using idsEnumeratedFrom_get mats 0 hTable.1 k hk
  · intro c1 h1 c2 h2 m1 m2 hm1 hm2 hc
    rw [pairwise_color_inj mats hTable.2 m1 (hcm c1 h1 m1 hm1) m2
      (hcm c2 h2 m2 hm2) hc]

/-- The material entry the two-square scenario registers. -/
def orangeMaterialA : ThreeMF.MaterialInfo := ⟨0, orangeColor, "A_material", 1⟩

/-- The two components the two-square scenario collects. -/
def squareComponents : List ThreeMF.ComponentInfo :=
  [{ id := 100
     vertices := [⟨0, 0, 0⟩, ⟨1, 0, 0⟩, ⟨1, 1, 0⟩, ⟨0, 1, 0⟩]
     triangles := [⟨some 0, some 1, some 2⟩, ⟨some 0, some 2, some 3⟩]
     material := some orangeMaterialA
     name := "A" },
   { id := 101
     vertices := [⟨10, 0, 0⟩, ⟨11, 0, 0⟩, ⟨11, 1, 0⟩, ⟨10, 1, 0⟩]
     triangles := [⟨some 0, some 1, some 2⟩, ⟨some 0, some 2, some 3⟩]
     material := some orangeMaterialA
     name := "B" }]

/-- Witness for C1: the two-square scenario collects a one-entry table
(both leaves share the entry), and the theorem applies to it. -/
theorem C1_material_registry_dedup_witness :
    ThreeMF.collectComponents none sceneSquares [] [] =
      some (squareComponents, [orangeMaterialA]) ∧
    List.Pairwise (fun a b => a.color ≠ b.color) [orangeMaterialA] := by
  have hcol : ThreeMF.collectComponents none sceneSquares [] [] =
      some (squareComponents, [orangeMaterialA]) := by
    norm_num [sceneSquares, ThreeMF.collectComponents, ThreeMF.collectChildren,
      ThreeMF.processMesh, ThreeMF.materialResult, ThreeMF.registerColor,
      ThreeMF.meshTriangles, ThreeMF.materialName, squareComponents,
      orangeMaterialA, orangeColor, squareVerts, squareIdx, identity4,
      translate10, freshWorld, applyMatrix4, multiplyMatrices, List.range_succ]
    decide
  exact ⟨hcol,
    (C1_material_registry_dedup sceneSquares squareComponents [orangeMaterialA]
      hcol).2.1⟩

/-- C2: every successful export of the slicer-compatible packaged
manufacturing serializer writes an archive containing the required
entries — the content-types declaration, the root relationships file, a
model part under the `3D/` folder, the relationships file for the root
model part, `Metadata/model_settings.config` and
`Metadata/project_settings.config`. -/
theorem C2_required_package_entries (t : Object3D) (pkg : ThreeMF.Package3MF)
    (h : ThreeMF.exportTo3MF t = some pkg) :
    "[Content_Types].xml" ∈ (ThreeMF.zipEntries pkg).map Prod.fst ∧
    "_rels/.rels" ∈ (ThreeMF.zipEntries pkg).map Prod.fst ∧
    "3D/3dmodel.model" ∈ (ThreeMF.zipEntries pkg).map Prod.fst ∧
    "3D/_rels/3dmodel.model.rels" ∈ (ThreeMF.zipEntries pkg).map Prod.fst ∧
    "Metadata/model_settings.config" ∈ (ThreeMF.zipEntries pkg).map Prod.fst ∧
    "Metadata/project_settings.config" ∈ (ThreeMF.zipEntries pkg).map Prod.fst := by
  refine ⟨?_, ?_, ?_, ?_, ?_, ?_⟩ <;> simp [ThreeMF.zipEntries]

/-- The package the exporter produces for a scene with no meshes. -/
def emptyPackage : ThreeMF.Package3MF :=
  { mainModel := ThreeMF.createMainModelXML []
    objectModel := ThreeMF.createObjectModelXML []
    modelSettings := ThreeMF.createModelSettingsXML []
    projectSettings := ThreeMF.createProjectSettingsConfig [] }

/-- Witness for C2: exporting an empty group succeeds and its archive
carries the project-settings entry. -/
theorem C2_required_package_entries_witness :
    ThreeMF.exportTo3MF emptyScene = some emptyPackage ∧
    "Metadata/project_settings.config" ∈
      (ThreeMF.zipEntries emptyPackage).map Prod.fst := by
  have hexp : ThreeMF.exportTo3MF emptyScene = some emptyPackage := by
    norm_num [ThreeMF.exportTo3MF, emptyScene, ThreeMF.collectComponents,
      ThreeMF.collectChildren, emptyPackage]
  exact ⟨hexp,
    (C2_required_package_entries emptyScene emptyPackage hexp).2.2.2.2.2⟩

/-- Counterexample to C3 as stated: for the scenario scene whose leaves
all share color `#FFA500`, the project-settings filament-color list the
code emits is `["#ffa500", "#FFFFFF"]` — the registered color is
serialized with lowercase hexadecimal digits, so the emitted list is
not the string list `["#FFA500", "#FFFFFF"]` the claim names. -/
theorem C3_filament_colors_counterexample :
    (ThreeMF.collectComponents none sceneSquares [] []).map
        (fun r => (ThreeMF.createProjectSettingsConfig r.2).filament_colour) =
      some ["#ffa500", "#FFFFFF"] ∧
    (["#ffa500", "#FFFFFF"] : List String) ≠ ["#FFA500", "#FFFFFF"] := by
  constructor
  · norm_num [sceneSquares, ThreeMF.collectComponents, ThreeMF.collectChildren,
      ThreeMF.processMesh, ThreeMF.materialResult, ThreeMF.registerColor,
      ThreeMF.meshTriangles, ThreeMF.createProjectSettingsConfig,
      ThreeMF.rgbToHexColor, ThreeMF.toHexByte, ThreeMF.materialName,
      jsMathRound, orangeColor, squareVerts, squareIdx, identity4, translate10,
      freshWorld, applyMatrix4, multiplyMatrices, List.range_succ]
    decide
  · decide

/-- C3 (amended): the project-settings file lists one filament-color
entry per registered material (the material's hex serialization, with
lowercase hexadecimal digits), padded with `'#FFFFFF'` entries to a
minimum of two entries when zero or one material is registered; the
scenario scene whose leaves all share color `#FFA500` yields exactly
the two entries `"#ffa500"` (the lowercase serialization of `#FFA500`)
and `"#FFFFFF"`. -/
theorem C3_filament_colors (mats : List ThreeMF.MaterialInfo) :
    (ThreeMF.createProjectSettingsConfig mats).filament_colour =
      mats.map (fun m => ThreeMF.rgbToHexColor m.color) ++
        List.replicate (2 - mats.length) "#FFFFFF" ∧
    2 ≤ (ThreeMF.createProjectSettingsConfig mats).filament_colour.length ∧
    (ThreeMF.collectComponents none sceneSquares [] []).map
        (fun r => (ThreeMF.createProjectSettingsConfig r.2).filament_colour) =
      some ["#ffa500", "#FFFFFF"] := by
  refine ⟨by simp [ThreeMF.createProjectSettingsConfig], ?_, ?_⟩
  · simp only [ThreeMF.createProjectSettingsConfig, List.length_append,
      List.length_map, List.length_replicate]
    omega
  · norm_num [sceneSquares, ThreeMF.collectComponents, ThreeMF.collectChildren,
      ThreeMF.processMesh, ThreeMF.materialResult, ThreeMF.registerColor,
      ThreeMF.meshTriangles, ThreeMF.createProjectSettingsConfig,
      ThreeMF.rgbToHexColor, ThreeMF.toHexByte, ThreeMF.materialName,
      jsMathRound, orangeColor, squareVerts, squareIdx, identity4, translate10,
      freshWorld, applyMatrix4, multiplyMatrices, List.range_succ]
    decide

/-- The component collected for the material-less leaf. -/
def noMatComponent : ThreeMF.ComponentInfo :=
  { id := 100
    vertices := [⟨0, 0, 0⟩, ⟨1, 0, 0⟩, ⟨0, 1, 0⟩]
    triangles := [⟨some 0, some 1, some 2⟩]
    material := none
    name := "N" }

/-- Counterexample to C4 as stated: for a leaf with no assigned material
the export registers nothing at all — the material table stays empty
and the component's material reference is null, instead of the claimed
registered `#808080` fallback.  (The gray fallback only applies when a
material is present but exposes no color.) -/
theorem C4_gray_fallback_counterexample :
    ThreeMF.collectComponents none sceneNoMat [] [] =
      some ([noMatComponent], []) ∧
    noMatComponent.material = none := by
  constructor
  · norm_num [sceneNoMat, ThreeMF.collectComponents, ThreeMF.collectChildren,
      ThreeMF.processMesh, ThreeMF.materialResult, ThreeMF.meshTriangles,
      unitTriangle, identity4, freshWorld, applyMatrix4, multiplyMatrices,
      List.range_succ, noMatComponent]
    decide
  · rfl

/-- C4 (amended): for every leaf whose material is present but cannot
supply a color, the export falls back to the default mid-gray `#808080`,
registers it like any other color (the resulting material is in the
table and carries the gray channels), and continues without a hard
failure; a leaf with no assigned material at all is exported with a
null material reference and registers nothing, and the export also
continues. -/
theorem C4_gray_fallback (world : Mat4) (md : MeshData)
    (comps : List ThreeMF.ComponentInfo) (mats : List ThreeMF.MaterialInfo)
    (ps : List Vec3) (hpos : md.geometry.position = some ps) :
    (md.material = .withoutColor →
      ∃ r, ThreeMF.processMesh world md comps mats = some r ∧
        ∃ c, r.1 = comps ++ [c] ∧
          ∃ m, c.material = some m ∧ m.color = defaultGray ∧ m ∈ r.2) ∧
    (md.material = .noMaterial →
      ∃ r, ThreeMF.processMesh world md comps mats = some r ∧
        ∃ c, r.1 = comps ++ [c] ∧ c.material = none ∧ r.2 = mats) := by
  constructor
  · intro hmat
    refine ⟨_, processMesh_of_pos world md comps mats ps hpos, _, rfl, ?_⟩
    refine ⟨(ThreeMF.registerColor defaultGray md.name mats).1, ?_, ?_, ?_⟩
    · simp [ThreeMF.materialResult, hmat]
    · exact registerColor_color defaultGray md.name mats
    · have hmem := registerColor_mem defaultGray md.name mats
      simpa [ThreeMF.materialResult, hmat] using hmem
  · intro hmat
    refine ⟨_, processMesh_of_pos world md comps mats ps hpos, _, rfl, ?_, ?_⟩
    · simp [ThreeMF.materialResult, hmat]
    · simp [ThreeMF.materialResult, hmat]

/-- A leaf mesh whose material exposes no usable color. -/
def colorlessLeafMesh : MeshData := ⟨⟨some unitTriangle, none⟩, .withoutColor, "W"⟩

/-- Witness for C4 (amended): the gray fallback registers for a present
but colorless material. -/
theorem C4_gray_fallback_witness :
    colorlessLeafMesh.geometry.position = some unitTriangle ∧
    (∃ r, ThreeMF.processMesh identity4 colorlessLeafMesh [] [] = some r ∧
      ∃ c, r.1 = [] ++ [c] ∧
        ∃ m, c.material = some m ∧ m.color = defaultGray ∧ m ∈ r.2) := by
  have h := C4_gray_fallback identity4 colorlessLeafMesh [] [] unitTriangle rfl
  exact ⟨rfl, h.1 rfl⟩

/-- Counterexample to C5 as stated: a leaf with a missing position
stream does not produce an empty record — reading `positionAttr.count`
throws and the whole traversal fails instead of continuing. -/
theorem C5_degenerate_leaves_counterexample :
    ThreeMF.collectComponents none sceneMissingPos [] [] = none := by
  norm_num [sceneMissingPos, ThreeMF.collectComponents, ThreeMF.collectChildren,
    ThreeMF.processMesh, identity4, freshWorld]

/-- C5 (amended): a mesh leaf with a present but empty position stream
and no index produces an empty record (zero vertices, zero triangles)
without an error; a leaf with a missing position stream makes the
traversal throw, so the export fails rather than continuing; and a leaf
with a non-multiple-of-three index count is not skipped — the mesh
branch emits one triangle per index position `0, 3, 6, …` below the
index count (so `⌈count / 3⌉` triangles, the last one carrying
undefined entries where the reads run past the index), and the export
continues with it. -/
theorem C5_degenerate_leaves (world : Mat4) (md : MeshData)
    (comps : List ThreeMF.ComponentInfo) (mats : List ThreeMF.MaterialInfo) :
    (md.geometry.position = some [] → md.geometry.index = none →
      ∃ r, ThreeMF.processMesh world md comps mats = some r ∧
        ∃ c, r.1 = comps ++ [c] ∧ c.vertices = [] ∧ c.triangles = []) ∧
    (md.geometry.position = none →
      ThreeMF.processMesh world md comps mats = none) ∧
    (∀ ps idx, md.geometry.position = some ps → md.geometry.index = some idx →
      ∃ r, ThreeMF.processMesh world md comps mats = some r ∧
        ∃ c, r.1 = comps ++ [c] ∧
          c.triangles.length = (idx.length + 2) / 3) := by
  refine ⟨?_, ?_, ?_⟩
  · intro hpos hidx
    refine ⟨_, processMesh_of_pos world md comps mats [] hpos, _, rfl, rfl, ?_⟩
    simp [ThreeMF.meshTriangles, hidx]
  · intro hpos
    exact processMesh_of_none world md comps mats hpos
  · intro ps idx hpos hidx
    refine ⟨_, processMesh_of_pos world md comps mats ps hpos, _, rfl, ?_⟩
    simp [ThreeMF.meshTriangles, hidx]

/-- A leaf mesh with an empty position stream. -/
def zeroVertexMesh : MeshData := ⟨⟨some [], none⟩, .noMaterial, "Z"⟩

/-- A leaf mesh whose index count (4) is not a multiple of three. -/
def badIndexMesh : MeshData :=
  ⟨⟨some unitTriangle, some [0, 1, 2, 2]⟩, .noMaterial, "bad"⟩

/-- Witness for C5 (amended): the empty leaf yields an empty record and
the four-entry-index leaf yields two (not zero) triangles. -/
theorem C5_degenerate_leaves_witness :
    (∃ r, ThreeMF.processMesh identity4 zeroVertexMesh [] [] = some r ∧
      ∃ c, r.1 = [] ++ [c] ∧ c.vertices = [] ∧ c.triangles = []) ∧
    (∃ r, ThreeMF.processMesh identity4 badIndexMesh [] [] = some r ∧
      ∃ c, r.1 = [] ++ [c] ∧
        c.triangles.length = (([0, 1, 2, 2] : List ℕ).length + 2) / 3) := by
  refine ⟨(C5_degenerate_leaves identity4 zeroVertexMesh [] []).1 rfl rfl, ?_⟩
  exact (C5_degenerate_leaves identity4 badIndexMesh [] []).2.2 unitTriangle
    [0, 1, 2, 2] rfl rfl

/-- The merged model the minimal variant produces for a scene with no
meshes. -/
def emptyMergedModel : Minimal3MF.MergedModel :=
  { basematerials := none
    vertices := []
    triangles := []
    buildTransform := "1 0 0 0 1 0 0 0 1 0 0 0" }

/-- C6: for a scene containing no mesh leaves, the packaged
serializers return a minimal container claiming zero geometry — the
slicer-compatible export succeeds with an empty object-model resource
list (no vertices, no triangles), an empty components block in the main
model, no parts in the model settings, and only padding filament
colors; the minimal variant's merged model has zero vertices, zero
triangles and no basematerials block.  Neither raises, and neither
claims nonzero geometry. -/
theorem C6_empty_scene (t : Object3D) (h : meshFree t = true) :
    (∃ pkg, ThreeMF.exportTo3MF t = some pkg ∧
      pkg.objectModel = [] ∧
      pkg.mainModel.componentRefs = [] ∧
      pkg.modelSettings = [] ∧
      pkg.projectSettings.filament_colour = ["#FFFFFF", "#FFFFFF"]) ∧
    (∃ m, Minimal3MF.createModelXML t = some m ∧
      m.vertices = [] ∧ m.triangles = [] ∧ m.basematerials = none) := by
  constructor
  · refine ⟨emptyPackage, ?_, rfl, rfl, rfl, rfl⟩
    rw [ThreeMF.exportTo3MF, collect_meshFree none t [] [] h]
    rfl
  · refine ⟨emptyMergedModel, ?_, rfl, rfl, rfl⟩
    rw [Minimal3MF.createModelXML, processObject_meshFree none t ⟨[], [], []⟩ h]
    rfl

/-- Witness for C6: the empty group is mesh-free and both serializers
emit zero geometry for it. -/
theorem C6_empty_scene_witness :
    meshFree emptyScene = true ∧
    (∃ pkg, ThreeMF.exportTo3MF emptyScene = some pkg ∧
      pkg.objectModel = [] ∧
      pkg.mainModel.componentRefs = [] ∧
      pkg.modelSettings = [] ∧
      pkg.projectSettings.filament_colour = ["#FFFFFF", "#FFFFFF"]) := by
  have hfree : meshFree emptyScene = true := by
    simp [meshFree, meshFreeList, emptyScene]
  exact ⟨hfree, (C6_empty_scene emptyScene hfree).1⟩

/-- C7: a successful collection yields the leaf records in depth-first
pre-order (children visited in stored order) — the emitted components'
vertex and triangle data equals, in order, the data of the
specification's pre-order leaf records, with each leaf's vertices
sampled through the freshly recomputed world transform (the composition
of local matrices along the path) — and the result is unchanged however
the cached world matrices were overwritten beforehand, because
`updateMatrixWorld(true)` recomputes them before sampling. -/
theorem C7_preorder_flatten (pw : Option Mat4) (t : Object3D)
    (comps : List ThreeMF.ComponentInfo) (mats : List ThreeMF.MaterialInfo)
    (res : List ThreeMF.ComponentInfo × List ThreeMF.MaterialInfo)
    (h : ThreeMF.collectComponents pw t comps mats = some res) :
    res.1.map (fun c => (c.vertices, c.triangles)) =
      comps.map (fun c => (c.vertices, c.triangles)) ++
        (preorderLeafRecords pw t).map leafShape ∧
    (∀ q, ThreeMF.collectComponents pw (updateMatrixWorld q t) comps mats =
      some res) :=
  ⟨collect_shape pw t comps mats res h,
   fun q => (collect_cacheInv pw q t comps mats).trans h⟩

/-- Witness for C7: the one-leaf scene flattens to its single pre-order
record, also after its caches are overwritten by a translation. -/
theorem C7_preorder_flatten_witness :
    ThreeMF.collectComponents none sceneNoMat [] [] =
      some ([noMatComponent], []) ∧
    [noMatComponent].map (fun c => (c.vertices, c.triangles)) =
      ([] : List ThreeMF.ComponentInfo).map (fun c => (c.vertices, c.triangles)) ++
        (preorderLeafRecords none sceneNoMat).map leafShape ∧
    ThreeMF.collectComponents none
        (updateMatrixWorld (some translate10) sceneNoMat) [] [] =
      some ([noMatComponent], []) := by
  have hcol : ThreeMF.collectComponents none sceneNoMat [] [] =
      some ([noMatComponent], []) := by
    norm_num [sceneNoMat, ThreeMF.collectComponents, ThreeMF.collectChildren,
      ThreeMF.processMesh, ThreeMF.materialResult, ThreeMF.meshTriangles,
      unitTriangle, identity4, freshWorld, applyMatrix4, multiplyMatrices,
      List.range_succ, noMatComponent]
    decide
  have h := C7_preorder_flatten none sceneNoMat [] [] ([noMatComponent], []) hcol
  exact ⟨hcol, h.1, h.2 (some translate10)⟩

/-- C8: starting from empty accumulators, the merged serializer
produces exactly the sum of the leaves' vertex counts, and — assuming
every leaf's triangle data is valid for its owning leaf — every
re-based triangle index is defined and strictly below the merged vertex
count. -/
theorem C8_merged_vertex_count (pw : Option Mat4) (t : Object3D)
    (res : Minimal3MF.ModelAcc)
    (h : Minimal3MF.processObject pw t ⟨[], [], []⟩ = some res)
    (hok : leafIndicesOk t = true) :
    res.vertices.length = totalVertexCount t ∧
    ∀ tr ∈ res.triangles, TriangleOkUpTo res.vertices.length tr := by
  have hc := processObject_counts pw t ⟨[], [], []⟩ res h
  refine ⟨by simpa using hc.1, ?_⟩
  exact hc.2 hok (fun tr htr => absurd htr (List.not_mem_nil tr))

/-- The merged accumulator for the two-square scenario. -/
def mergedSquaresAcc : Minimal3MF.ModelAcc :=
  { vertices := [⟨0, 0, 0⟩, ⟨1, 0, 0⟩, ⟨1, 1, 0⟩, ⟨0, 1, 0⟩,
      ⟨10, 0, 0⟩, ⟨11, 0, 0⟩, ⟨11, 1, 0⟩, ⟨10, 1, 0⟩]
    triangles := [⟨some 0, some 1, some 2, some 0⟩,
      ⟨some 0, some 2, some 3, some 0⟩,
      ⟨some 4, some 5, some 6, some 0⟩,
      ⟨some 4, some 6, some 7, some 0⟩]
    materials := [⟨0, orangeColor, "A_material"⟩] }

/-- Witness for C8: the two-square scenario merges to eight vertices
(4 + 4) with every re-based index below eight. -/
theorem C8_merged_vertex_count_witness :
    mergedSquaresAcc.vertices.length = totalVertexCount sceneSquares ∧
    ∀ tr ∈ mergedSquaresAcc.triangles,
      TriangleOkUpTo mergedSquaresAcc.vertices.length tr := by
  have hm : Minimal3MF.processObject none sceneSquares ⟨[], [], []⟩ =
      some mergedSquaresAcc := by
    norm_num [sceneSquares, Minimal3MF.processObject, Minimal3MF.processList,
      Minimal3MF.materialResultId, Minimal3MF.registerColorId,
      Minimal3MF.meshTrianglesAt, mergedSquaresAcc, orangeColor, squareVerts,
      squareIdx, identity4, translate10, freshWorld, applyMatrix4,
      multiplyMatrices, List.range_succ]
    decide
  have hok : leafIndicesOk sceneSquares = true := by
    simp [leafIndicesOk, leafIndicesOkList, meshIndicesOk, sceneSquares,
      squareVerts, squareIdx]
  exact C8_merged_vertex_count none sceneSquares mergedSquaresAcc hm hok

/-- C9: the export leaves the live scene unchanged — the only write the
exporters perform on scene objects is `updateMatrixWorld(true)` (line
69 of `collectComponents`, modelled by `updateMatrixWorld`), and that
pass preserves every mesh payload (vertex data, triangle indices,
material assignment, name) and every local transform; vertices are
copied into fresh records before the world transform is applied, so
the geometry buffers are never written. -/
theorem C9_export_readonly (pw : Option Mat4) (t : Object3D) :
    sceneMeshes (updateMatrixWorld pw t) = sceneMeshes t ∧
    sceneLocalMatrices (updateMatrixWorld pw t) = sceneLocalMatrices t :=
  ⟨sceneMeshes_update pw t, sceneLocalMatrices_update pw t⟩

/-- C10: the packaged manufacturing serializer writes every exported
leaf vertex's world-space coordinates with fixed 7-decimal precision
(the emitted object resource holds exactly the `toFixed(7)` values of
the component's world-space vertices), and each written coordinate
differs from the original by at most half of the seventh decimal place
(so reading it back matches within the declared precision); the legacy
variant does the same with 6 decimals at its default scale. -/
theorem C10_vertex_precision :
    (∀ comps : List ThreeMF.ComponentInfo, ∀ c ∈ comps,
      ({ id := c.id
         vertices := c.vertices.map (fun v =>
           ⟨jsToFixed 7 v.x, jsToFixed 7 v.y, jsToFixed 7 v.z⟩)
         triangles := c.triangles } : ThreeMF.ObjectResource) ∈
        ThreeMF.createObjectModelXML comps ∧
      ∀ v ∈ c.vertices,
        |jsToFixed 7 v.x - v.x| ≤ 1 / (2 * 10 ^ 7) ∧
        |jsToFixed 7 v.y - v.y| ≤ 1 / (2 * 10 ^ 7) ∧
        |jsToFixed 7 v.z - v.z| ≤ 1 / (2 * 10 ^ 7)) ∧
    (∀ mesh : Legacy3MF.LMesh, ∀ ps, mesh.geometry.position = some ps →
      Legacy3MF.vertexRows 1 mesh = some (ps.map (fun p =>
        let v := applyMatrix4 mesh.matrixWorld p
        ⟨jsToFixed 6 v.x, jsToFixed 6 v.y, jsToFixed 6 v.z⟩)) ∧
      ∀ p ∈ ps,
        |jsToFixed 6 (applyMatrix4 mesh.matrixWorld p).x -
          (applyMatrix4 mesh.matrixWorld p).x| ≤ 1 / (2 * 10 ^ 6) ∧
        |jsToFixed 6 (applyMatrix4 mesh.matrixWorld p).y -
          (applyMatrix4 mesh.matrixWorld p).y| ≤ 1 / (2 * 10 ^ 6) ∧
        |jsToFixed 6 (applyMatrix4 mesh.matrixWorld p).z -
          (applyMatrix4 mesh.matrixWorld p).z| ≤ 1 / (2 * 10 ^ 6)) := by
  constructor
  · intro comps c hc
    constructor
    · exact List.mem_map_of_mem _ hc
    · intro v hv
      exact ⟨abs_jsToFixed_sub_le 7 v.x, abs_jsToFixed_sub_le 7 v.y,
        abs_jsToFixed_sub_le 7 v.z⟩
  · intro mesh ps hpos
    constructor
    · rw [Legacy3MF.vertexRows, hpos]
      refine congrArg some (List.map_congr_left ?_)
      intro p hp
      simp [mul_one]
    · intro p hp
      exact ⟨abs_jsToFixed_sub_le 6 _, abs_jsToFixed_sub_le 6 _,
        abs_jsToFixed_sub_le 6 _⟩

/-- A vertex with awkward coordinates for the rounding witness. -/
def precisionVertex : Vec3 := ⟨1 / 3, 1 / 7, 5⟩

/-- A component holding the awkward vertex. -/
def precisionComponent : ThreeMF.ComponentInfo :=
  ⟨100, [precisionVertex], [], none, "P"⟩

/-- A legacy-variant mesh holding the awkward vertex. -/
def precisionMesh : Legacy3MF.LMesh := ⟨⟨some [precisionVertex], none⟩, identity4⟩

/-- Witness for C10 at the awkward vertex. -/
theorem C10_vertex_precision_witness :
    precisionVertex ∈ precisionComponent.vertices ∧
    |jsToFixed 7 precisionVertex.x - precisionVertex.x| ≤ 1 / (2 * 10 ^ 7) ∧
    Legacy3MF.vertexRows 1 precisionMesh =
      some ([precisionVertex].map (fun p =>
        let v := applyMatrix4 precisionMesh.matrixWorld p
        ⟨jsToFixed 6 v.x, jsToFixed 6 v.y, jsToFixed 6 v.z⟩)) := by
  have h1 := (C10_vertex_precision.1 [precisionComponent] precisionComponent
    (by simp)).2 precisionVertex (by simp [precisionComponent])
  have h2 := C10_vertex_precision.2 precisionMesh [precisionVertex] rfl
  exact ⟨by simp [precisionComponent], h1.1, h2.1⟩
